import Mathlib

/-!
Shallow embedding of the cleanup engine of `cleanup_manager.py`
(`SystemCleanupManager`): the location catalog data model, the directory
size scanner, the four retention strategies (generic directory wipe,
OS-delegated recycle-bin empty, fixed-size prefetch trim,
service-coordinated wipe of the Windows Update cache) and the sequential
batch executor.

Modelling conventions:
* A directory tree is a finite rose tree of named directories holding flat
  lists of file entries.  The order of `files` is the `os.walk`/`os.listdir`
  enumeration order.
* A file entry carries its live size in bytes, its modification time as a
  natural number (only the ordering matters) and a `locked` flag: `os.remove`
  on a locked file raises `PermissionError`, which the source catches at the
  single-file granularity and skips.
* Python `float` megabyte values are modelled as exact rationals
  (`bytes / (1024*1024)`); the claims under study do not depend on binary
  floating-point rounding.
* External processes (`powershell Clear-RecycleBin`, `net stop/start
  wuauserv`) are oracles in an `Env`: either a completed `CmdResult`
  (return code, stdout, stderr) or an exception carrying the Python
  exception text (`str(e)`); a `subprocess` timeout is such an exception
  (`TimeoutExpired`).
* Elapsed wall-clock time measured by `datetime.now()` differences is an
  abstract tick count `Env.dur`.
-/

/-- One entry of a directory listing: name, live size in bytes, modification
time, and whether deleting it raises a (caught) `PermissionError`. -/
structure FileEntry where
  name : String
  size : Nat
  mtime : Nat
  locked : Bool
  deriving DecidableEq

mutual

/-- A directory: its name, the regular files directly inside it, and its
immediate subdirectories. -/
inductive FSTree where
  | dir (dirName : String) (files : List FileEntry) (subdirs : FSForest)

/-- A list of sibling subdirectories. -/
inductive FSForest where
  | fnil
  | fcons (t : FSTree) (ts : FSForest)

end

def FSTree.dirName : FSTree → String
  | .dir n _ _ => n

def FSTree.files : FSTree → List FileEntry
  | .dir _ fs _ => fs

def FSTree.subdirs : FSTree → FSForest
  | .dir _ _ ds => ds

/-- Sum of the sizes of a flat list of file entries, in bytes. -/
def sumSizes (l : List FileEntry) : Nat :=
  (l.map (fun f => f.size)).sum

mutual

/-- Number of files anywhere under a directory, as counted by the
`os.walk` loop of `_calculate_directory_size`. -/
def FSTree.fileCount : FSTree → Nat
  | .dir _ fs ds => fs.length + FSForest.fileCount ds

def FSForest.fileCount : FSForest → Nat
  | .fnil => 0
  | .fcons t ts => FSTree.fileCount t + FSForest.fileCount ts

end

mutual

/-- Total size in bytes of all files anywhere under a directory, as summed
by the `os.walk` loop of `_calculate_directory_size`. -/
def FSTree.totalSize : FSTree → Nat
  | .dir _ fs ds => sumSizes fs + FSForest.totalSize ds

def FSForest.totalSize : FSForest → Nat
  | .fnil => 0
  | .fcons t ts => FSTree.totalSize t + FSForest.totalSize ts

end

mutual

/-- Number of unlocked (deletable) files anywhere under a directory. -/
def FSTree.unlockedCount : FSTree → Nat
  | .dir _ fs ds => (fs.filter (fun f => !f.locked)).length + FSForest.unlockedCount ds

def FSForest.unlockedCount : FSForest → Nat
  | .fnil => 0
  | .fcons t ts => FSTree.unlockedCount t + FSForest.unlockedCount ts

end

mutual

/-- Total size in bytes of the unlocked (deletable) files anywhere under a
directory: the bytes a generic wipe actually frees, measured live. -/
def FSTree.unlockedSize : FSTree → Nat
  | .dir _ fs ds => sumSizes (fs.filter (fun f => !f.locked)) + FSForest.unlockedSize ds

def FSForest.unlockedSize : FSForest → Nat
  | .fnil => 0
  | .fcons t ts => FSTree.unlockedSize t + FSForest.unlockedSize ts

end

/-- Whether `os.listdir` of the directory is empty: no files and no
subdirectories.  This is the `not os.listdir(dir_path)` test guarding
`os.rmdir` in `_cleanup_directory`. -/
def FSTree.isEmptyDir : FSTree → Bool
  | .dir _ [] .fnil => true
  | _ => false

/-- Drop the subdirectories that have become empty: the best-effort
`os.rmdir` pass that `_cleanup_directory` runs on the children of each
visited directory. -/
def FSForest.dropEmpty : FSForest → FSForest
  | .fnil => .fnil
  | .fcons t ts => if t.isEmptyDir then ts.dropEmpty else .fcons t (ts.dropEmpty)

mutual

/-- The bottom-up wipe of `_cleanup_directory`'s `os.walk(topdown=False)`
loop: in every directory, deepest first, delete each file (a locked file
raises and is skipped), then remove the children that are now empty.
Returns the resulting tree, the number of files deleted, and the bytes
freed (live size at delete time). -/
def FSTree.wipe : FSTree → FSTree × Nat × Nat
  | .dir n fs ds =>
    let r := FSForest.wipe ds
    let removed := fs.filter (fun f => !f.locked)
    let kept := fs.filter (fun f => f.locked)
    (FSTree.dir n kept (FSForest.dropEmpty r.1), r.2.1 + removed.length, r.2.2 + sumSizes removed)

def FSForest.wipe : FSForest → FSForest × Nat × Nat
  | .fnil => (.fnil, 0, 0)
  | .fcons t ts =>
    let rt := FSTree.wipe t
    let rts := FSForest.wipe ts
    (.fcons rt.1 rts.1, rt.2.1 + rts.2.1, rt.2.2 + rts.2.2)

end

/-- The modelled filesystem: directory trees bound to absolute paths.
`lookupTree fs p = none` models `os.path.exists(p)` returning `False`. -/
def lookupTree : List (String × FSTree) → String → Option FSTree
  | [], _ => none
  | (k, t) :: rest, p => if k = p then some t else lookupTree rest p

/-- Replace the tree bound to a path (the in-place mutation of the tree at
that path performed by a cleanup). -/
def updateTree : List (String × FSTree) → String → FSTree → List (String × FSTree)
  | [], _, _ => []
  | (k, v) :: rest, p, t =>
    if k = p then (k, t) :: updateTree rest p t else (k, v) :: updateTree rest p t

theorem lookupTree_updateTree (fs : List (String × FSTree)) (p : String) (t t₀ : FSTree)
    (h : lookupTree fs p = some t₀) : lookupTree (updateTree fs p t) p = some t := by
  induction fs with
  | nil => simp [lookupTree] at h
  | cons kv rest ih =>
    obtain ⟨k, v⟩ := kv
    by_cases hk : k = p
    · simp [lookupTree, updateTree, hk]
    · simp only [lookupTree, if_neg hk] at h
      simp [lookupTree, updateTree, hk, ih h]

theorem lookupTree_updateTree_none (fs : List (String × FSTree)) (p : String) (t : FSTree)
    (h : lookupTree fs p = none) : lookupTree (updateTree fs p t) p = none := by
  induction fs with
  | nil => simp [lookupTree, updateTree]
  | cons kv rest ih =>
    obtain ⟨k, v⟩ := kv
    by_cases hk : k = p
    · simp [lookupTree, hk] at h
    · simp only [lookupTree, if_neg hk] at h
      simp [lookupTree, updateTree, hk, ih h]

/-- Bytes-to-megabytes conversion `bytes / (1024 * 1024)` applied by the
source before storing or reporting any size. -/
def mbOfBytes (bytes : Nat) : ℚ :=
  (bytes : ℚ) / (1024 * 1024)

/-- The `CleanupLocation` dataclass: one catalogued cleanup target.
`size_mb` and `file_count` are the cached scan results (0 until scanned);
`size_mb` is the Python float in megabytes, modelled as an exact rational. -/
structure CleanupLocation where
  name : String
  path : String
  description : String
  size_mb : ℚ := 0
  file_count : Nat := 0
  enabled : Bool := true
  requires_admin : Bool := false
  safe_to_delete : Bool := true
  category : String := "General"
  deriving DecidableEq

/-- The `CleanupResult` dataclass: the outcome of one cleanup invocation.
`size_freed_mb` is the Python float in megabytes as an exact rational;
`duration_seconds` is the abstract tick count of the measured elapsed time. -/
structure CleanupResult where
  location : String
  success : Bool
  files_deleted : Nat
  size_freed_mb : ℚ
  error_message : String := ""
  duration_seconds : Nat := 0
  deriving DecidableEq

/-- A completed `subprocess.run`: return code and captured output. -/
structure CmdResult where
  returncode : Int
  stdout : String
  stderr : String
  deriving DecidableEq

/-- The environment a cleanup runs against: the live filesystem, the
behaviour of each external command (`Except.error e` models the call
raising a Python exception with text `e` — in particular a
`subprocess.TimeoutExpired`), a possible exception injected into the inner
wipe call of `_cleanup_windows_update_cache` (its `except` arm exists for
exactly that possibility), and the elapsed-time measurement. -/
structure Env where
  fs : List (String × FSTree)
  recycleCmd : Except String CmdResult
  stopCmd : Except String CmdResult
  startCmd : Except String CmdResult
  wipeExn : Option String
  dur : Nat

/-- The `(size_mb, file_count)` of `_calculate_directory_size`: 0/0 when the
path does not exist, otherwise the recursive walk totals, with the byte
total converted to megabytes at the end. -/
def calculate_directory_size (fs : List (String × FSTree)) (p : String) : ℚ × Nat :=
  match lookupTree fs p with
  | none => (0, 0)
  | some t => (mbOfBytes t.totalSize, t.fileCount)

/-- The fixed drive enumeration of `_scan_recycle_bin`. -/
def recycleBinPaths : List String :=
  ["C:\\$Recycle.Bin", "D:\\$Recycle.Bin", "E:\\$Recycle.Bin", "F:\\$Recycle.Bin"]

/-- The `(size_mb, file_count)` of `_scan_recycle_bin`: walk the recycle
directory of each hardcoded drive, skipping absent ones, and sum. -/
def scan_recycle_bin (fs : List (String × FSTree)) : ℚ × Nat :=
  let totals := recycleBinPaths.foldl
    (fun acc p =>
      match lookupTree fs p with
      | none => acc
      | some t => (acc.1 + t.totalSize, acc.2 + t.fileCount)) ((0 : Nat), (0 : Nat))
  (mbOfBytes totals.1, totals.2)

/-- The per-location worker `scan_location` inside `scan_cleanup_locations`:
dispatch on the symbolic recycle-bin path, then overwrite the two cached
fields in place. -/
def scan_location (fs : List (String × FSTree)) (loc : CleanupLocation) : CleanupLocation :=
  let sc := if loc.path = "$Recycle.Bin" then scan_recycle_bin fs
            else calculate_directory_size fs loc.path
  { loc with size_mb := sc.1, file_count := sc.2 }

/-- The scan pass of `scan_cleanup_locations`: every catalog entry is
rescanned and written back under its own key.  The thread pool hands each
worker a disjoint location object, so the batch is equivalent to this
per-entry map. -/
def scan_cleanup_locations (catalog : List (String × CleanupLocation))
    (fs : List (String × FSTree)) : List (String × CleanupLocation) :=
  catalog.map (fun kl => (kl.1, scan_location fs kl.2))

/-- The progress calls `_cleanup_directory` makes when a callback is
supplied: after each deleted file it reports
`(processed_files, total_files)` where `total_files` is the location's
cached `file_count`, and only when that cached total is positive. -/
def wipeProgress (totalFiles : Nat) (deletedCount : Nat) : List (Nat × Nat) :=
  if totalFiles > 0 then (List.range deletedCount).map (fun i => (i + 1, totalFiles)) else []

/-- The generic wipe strategy `_cleanup_directory`: a missing target path is
the explicit success no-op; otherwise delete every file bottom-up
(best-effort), remove now-empty directories, and report the live bytes
freed converted to megabytes.  Returns the result, the updated filesystem
and the progress-callback trace. -/
def cleanup_directory (loc : CleanupLocation) (fs : List (String × FSTree)) (dur : Nat) :
    CleanupResult × List (String × FSTree) × List (Nat × Nat) :=
  match lookupTree fs loc.path with
  | none =>
    ({ location := loc.name, success := true, files_deleted := 0, size_freed_mb := 0,
       error_message := "Directory does not exist", duration_seconds := 0 }, fs, [])
  | some t =>
    let r := t.wipe
    ({ location := loc.name, success := true, files_deleted := r.2.1,
       size_freed_mb := mbOfBytes r.2.2, error_message := "",
       duration_seconds := dur },
     updateTree fs loc.path r.1, wipeProgress loc.file_count r.2.1)

/-- The OS-delegated strategy `_empty_recycle_bin`: rescan the bin, run the
PowerShell empty command, and report the pre-operation scanned size/count as
freed on exit code 0; a non-zero exit fails with the captured stderr (or a
fixed fallback when stderr is empty); a raised exception (including a
timeout) fails with the exception text.  The OS-side effect on the bin
itself is performed by the external command, outside the modelled trees, so
the filesystem component is returned unchanged. -/
def empty_recycle_bin (env : Env) : CleanupResult :=
  let pre := scan_recycle_bin env.fs
  match env.recycleCmd with
  | .error e =>
    { location := "Recycle Bin", success := false, files_deleted := 0, size_freed_mb := 0,
      error_message := e, duration_seconds := env.dur }
  | .ok r =>
    if r.returncode = 0 then
      { location := "Recycle Bin", success := true, files_deleted := pre.2,
        size_freed_mb := pre.1, error_message := "", duration_seconds := env.dur }
    else
      { location := "Recycle Bin", success := false, files_deleted := 0, size_freed_mb := 0,
        error_message := if r.stderr = "" then "Failed to empty Recycle Bin" else r.stderr,
        duration_seconds := env.dur }

/-- The hardcoded prefetch directory of `_cleanup_prefetch_files`. -/
def prefetchPath : String := "C:\\Windows\\Prefetch"

/-- The suffix checked by `file.endswith('.pf')`, as a character sequence. -/
def pfSuffix : List Char := ['.', 'p', 'f']

/-- Eligibility test of the prefetch trim: a regular file directly in the
prefetch directory whose name ends in `.pf` (`str.endswith` is exactly a
suffix test on the character sequence).  Subdirectories fail the
`os.path.isfile` check and are held in `FSTree.subdirs`, so only the flat
`files` list is considered. -/
def eligibleFiles (fs : List FileEntry) : List FileEntry :=
  fs.filter (fun f => pfSuffix.isSuffixOf f.name.data)

/-- The sort key order of `prefetch_files.sort(key=lambda x: x[1],
reverse=True)`: newest first. -/
def mtimeGE (a b : FileEntry) : Prop := b.mtime ≤ a.mtime

instance : DecidableRel mtimeGE := fun a b => Nat.decLe b.mtime a.mtime

instance : IsTotal FileEntry mtimeGE := ⟨fun a b => Nat.le_total b.mtime a.mtime⟩

instance : IsTrans FileEntry mtimeGE := ⟨fun _ _ _ h h' => Nat.le_trans h' h⟩

/-- Python's `list.sort` is stable; a stable sort by a total preorder is
unique, so the descending-by-mtime sort of the eligible prefetch files is
insertion sort under `mtimeGE` (equal mtimes keep listing order). -/
def sortByMtime (l : List FileEntry) : List FileEntry :=
  List.insertionSort mtimeGE l

/-- The files the prefetch trim actually removes from a directory listing:
everything past the newest 128 eligible files, minus the locked ones whose
`os.remove` raised and was skipped. -/
def trimRemoved (L : List FileEntry) : List FileEntry :=
  ((sortByMtime (eligibleFiles L)).drop 128).filter (fun f => !f.locked)

/-- The directory listing left behind by the prefetch trim: every entry
whose path was not successfully removed, in the original listing order. -/
def trimSurvivors (L : List FileEntry) : List FileEntry :=
  L.filter (fun f => !(((trimRemoved L).map (fun g => g.name)).contains f.name))

/-- The fixed-size trim strategy `_cleanup_prefetch_files`: list the
eligible files, sort newest-first, keep the first 128, best-effort delete
the remainder (a locked file is skipped), and free the recorded live sizes. -/
def cleanup_prefetch_files (env : Env) : CleanupResult × List (String × FSTree) :=
  match lookupTree env.fs prefetchPath with
  | none =>
    ({ location := "Prefetch Files", success := true, files_deleted := 0, size_freed_mb := 0,
       error_message := "Prefetch directory does not exist", duration_seconds := 0 }, env.fs)
  | some t =>
    ({ location := "Prefetch Files", success := true,
       files_deleted := (trimRemoved t.files).length,
       size_freed_mb := mbOfBytes (sumSizes (trimRemoved t.files)), error_message := "",
       duration_seconds := env.dur },
     updateTree env.fs prefetchPath (FSTree.dir t.dirName (trimSurvivors t.files) t.subdirs))

/-- One externally visible step of the service-coordinated wipe: issuing
the `net stop wuauserv` command, entering the inner `_cleanup_directory`
call, or issuing the `net start wuauserv` command. -/
inductive SvcEvent where
  | stopSvc
  | wipeRun
  | startSvc
  deriving DecidableEq

/-- The download directory emptied by `_cleanup_windows_update_cache`. -/
def updateCachePath : String := "C:\\Windows\\SoftwareDistribution\\Download"

/-- The fresh location object `_cleanup_windows_update_cache` builds for
its inner `_cleanup_directory` call (cached fields at their defaults). -/
def updateCacheLoc : CleanupLocation :=
  { name := "Windows Update Cache", path := updateCachePath,
    description := "Windows Update downloads", category := "System Cache" }

/-- The failure result built by the `except` arm of
`_cleanup_windows_update_cache`. -/
def updateCacheFailure (e : String) (dur : Nat) : CleanupResult :=
  { location := "Windows Update Cache", success := false, files_deleted := 0,
    size_freed_mb := 0, error_message := e, duration_seconds := dur }

/-- The service-coordinated strategy `_cleanup_windows_update_cache`: stop
the service (its exit code is not examined), run the generic wipe on the
download directory, restart the service (exit code again not examined); on
any exception, attempt the restart once more inside the handler — whose own
failure is swallowed by `pass` — and surface the exception text.  Returns
the result, the updated filesystem, and the ordered trace of issued steps. -/
def cleanup_windows_update_cache (env : Env) :
    CleanupResult × List (String × FSTree) × List SvcEvent :=
  match env.stopCmd with
  | .error e => (updateCacheFailure e env.dur, env.fs, [.stopSvc, .startSvc])
  | .ok _ =>
    match env.wipeExn with
    | some e => (updateCacheFailure e env.dur, env.fs, [.stopSvc, .wipeRun, .startSvc])
    | none =>
      let r := cleanup_directory updateCacheLoc env.fs env.dur
      match env.startCmd with
      | .error e =>
        (updateCacheFailure e env.dur, r.2.1, [.stopSvc, .wipeRun, .startSvc, .startSvc])
      | .ok _ => (r.1, r.2.1, [.stopSvc, .wipeRun, .startSvc])

/-- Catalog lookup: the `location_key not in self.cleanup_locations` test. -/
def lookupLoc : List (String × CleanupLocation) → String → Option CleanupLocation
  | [], _ => none
  | (k, l) :: rest, key => if k = key then some l else lookupLoc rest key

/-- The dispatcher `cleanup_location`: an unknown key is the "Location not
found" failure; otherwise exactly one strategy runs, selected by key.
Returns the result, the updated environment, and the progress-callback
trace the generic wipe would emit to a supplied callback. -/
def cleanup_location (catalog : List (String × CleanupLocation)) (env : Env)
    (key : String) : CleanupResult × Env × List (Nat × Nat) :=
  match lookupLoc catalog key with
  | none =>
    ({ location := key, success := false, files_deleted := 0, size_freed_mb := 0,
       error_message := "Location not found", duration_seconds := 0 }, env, [])
  | some loc =>
    if key = "recycle_bin" then (empty_recycle_bin env, env, [])
    else if key = "prefetch" then
      let r := cleanup_prefetch_files env
      (r.1, { env with fs := r.2 }, [])
    else if key = "windows_update_cache" then
      let r := cleanup_windows_update_cache env
      (r.1, { env with fs := r.2.1 }, [])
    else
      let r := cleanup_directory loc env.fs env.dur
      (r.1, { env with fs := r.2.1 }, r.2.2)

/-- The batch executor `cleanup_selected_locations`: strictly sequential,
one result per selected key, each invocation running against the state the
previous one left behind. -/
def cleanup_selected_locations (catalog : List (String × CleanupLocation)) (env : Env) :
    List String → List CleanupResult × Env
  | [] => ([], env)
  | key :: rest =>
    let r := cleanup_location catalog env key
    let rs := cleanup_selected_locations catalog r.2.1 rest
    (r.1 :: rs.1, rs.2)

theorem mbOfBytes_nonneg (n : Nat) : 0 ≤ mbOfBytes n := by
  unfold mbOfBytes
  positivity

theorem FSForest.unlockedCount_dropEmpty_le :
    ∀ ts : FSForest, ts.dropEmpty.unlockedCount ≤ ts.unlockedCount
  | .fnil => by simp [FSForest.dropEmpty]
  | .fcons t ts => by
    have ih := FSForest.unlockedCount_dropEmpty_le ts
    by_cases h : t.isEmptyDir
    · simp only [FSForest.dropEmpty, if_pos h, FSForest.unlockedCount]
      omega
    · simp only [FSForest.dropEmpty, if_neg h, FSForest.unlockedCount]
      omega

mutual

theorem FSTree.wipe_count (t : FSTree) : t.wipe.2.1 = t.unlockedCount := by
  cases t with
  | dir n fs ds =>
    simp [FSTree.wipe, FSTree.unlockedCount, FSForest.forest_wipe_count ds, Nat.add_comm]

theorem FSForest.forest_wipe_count (ts : FSForest) : ts.wipe.2.1 = ts.unlockedCount := by
  cases ts with
  | fnil => rfl
  | fcons t ts =>
    simp [FSForest.wipe, FSForest.unlockedCount, FSTree.wipe_count t, FSForest.forest_wipe_count ts]

end

mutual

theorem FSTree.wipe_freed (t : FSTree) : t.wipe.2.2 = t.unlockedSize := by
  cases t with
  | dir n fs ds =>
    simp [FSTree.wipe, FSTree.unlockedSize, FSForest.forest_wipe_freed ds, Nat.add_comm]

theorem FSForest.forest_wipe_freed (ts : FSForest) : ts.wipe.2.2 = ts.unlockedSize := by
  cases ts with
  | fnil => rfl
  | fcons t ts =>
    simp [FSForest.wipe, FSForest.unlockedSize, FSTree.wipe_freed t, FSForest.forest_wipe_freed ts]

end

mutual

theorem FSTree.wipe_post_unlocked (t : FSTree) : t.wipe.1.unlockedCount = 0 := by
  cases t with
  | dir n fs ds =>
    have hkept : (fs.filter (fun f => f.locked)).filter (fun f => !f.locked) = [] := by
      rw [List.filter_filter]
      rw [List.filter_eq_nil_iff]
      intro a _
      cases a.locked <;> simp
    have hforest := FSForest.forest_wipe_post_unlocked ds
    have hdrop := FSForest.unlockedCount_dropEmpty_le ds.wipe.1
    simp only [FSTree.wipe, FSTree.unlockedCount, hkept, List.length_nil, Nat.zero_add]
    omega

theorem FSForest.forest_wipe_post_unlocked (ts : FSForest) : ts.wipe.1.unlockedCount = 0 := by
  cases ts with
  | fnil => rfl
  | fcons t ts =>
    simp [FSForest.wipe, FSForest.unlockedCount, FSTree.wipe_post_unlocked t,
      FSForest.forest_wipe_post_unlocked ts]

end

/-- C2: the service-coordinated wipe of the Windows Update cache issues a
service-start command on every execution path — stop raising, the wipe
raising, the wipe returning (success or failure), or even the first start
raising — and no wipe activity follows the final start: in the issued-step
trace there is a `startSvc` with no `wipeRun` after it, before the function
returns its result. -/
theorem update_cache_restart_unconditional (env : Env) :
    ∃ pre post, (cleanup_windows_update_cache env).2.2 =
      pre ++ SvcEvent.startSvc :: post ∧ SvcEvent.wipeRun ∉ post := by
  cases hs : env.stopCmd with
  | error e =>
    exact ⟨[.stopSvc], [], by simp [cleanup_windows_update_cache, hs], by simp⟩
  | ok r =>
    cases hw : env.wipeExn with
    | some e =>
      exact ⟨[.stopSvc, .wipeRun], [], by simp [cleanup_windows_update_cache, hs, hw], by simp⟩
    | none =>
      cases hst : env.startCmd with
      | error e =>
        refine ⟨[.stopSvc, .wipeRun], [.startSvc],
          by simp [cleanup_windows_update_cache, hs, hw, hst], by simp⟩
      | ok r2 =>
        exact ⟨[.stopSvc, .wipeRun], [],
          by simp [cleanup_windows_update_cache, hs, hw, hst], by simp⟩

/-- C5: cleaning a catalogued location whose target directory does not
exist (dispatched to the generic wipe, i.e. not one of the three special
keys) returns `success = true`, zero files deleted, zero bytes freed and
the message "Directory does not exist", and leaves the environment
untouched, emitting no progress. -/
theorem missing_directory_cleanup_noop (catalog : List (String × CleanupLocation))
    (env : Env) (key : String) (loc : CleanupLocation)
    (hget : lookupLoc catalog key = some loc)
    (h1 : key ≠ "recycle_bin") (h2 : key ≠ "prefetch") (h3 : key ≠ "windows_update_cache")
    (habs : lookupTree env.fs loc.path = none) :
    cleanup_location catalog env key =
      ({ location := loc.name, success := true, files_deleted := 0, size_freed_mb := 0,
         error_message := "Directory does not exist", duration_seconds := 0 }, env, []) := by
  simp [cleanup_location, hget, h1, h2, h3, cleanup_directory, habs]

/-- Shared concrete oracle: an external command that completed with exit
code 0 and no output. -/
def okCmd : Except String CmdResult :=
  .ok { returncode := 0, stdout := "", stderr := "" }

/-- Shared concrete environment with an empty filesystem and succeeding
external commands. -/
def emptyEnv : Env :=
  { fs := [], recycleCmd := okCmd, stopCmd := okCmd, startCmd := okCmd,
    wipeExn := none, dur := 0 }

/-- Shared concrete location used by witnesses: a generic user-temp target
at a path that is absent from `emptyEnv`. -/
def userTempLoc : CleanupLocation :=
  { name := "User Temporary Files", path := "C:\\Temp",
    description := "Temporary files" }

/-- Witness for C5 at a concrete input: a one-entry catalog whose location
points at an absent path. -/
theorem missing_directory_cleanup_noop_witness :
    cleanup_location [("user_temp", userTempLoc)] emptyEnv "user_temp" =
      ({ location := "User Temporary Files", success := true, files_deleted := 0,
         size_freed_mb := 0, error_message := "Directory does not exist",
         duration_seconds := 0 }, emptyEnv, []) :=
  missing_directory_cleanup_noop [("user_temp", userTempLoc)] emptyEnv "user_temp" userTempLoc
    rfl (by decide) (by decide) (by decide) rfl

/-- Concrete directory holding exactly three files of 100, 200 and 300
bytes, for the scan scenario. -/
def scanDemoTree : FSTree :=
  .dir "Demo" [⟨"a", 100, 0, false⟩, ⟨"b", 200, 0, false⟩, ⟨"c", 300, 0, false⟩] .fnil

/-- Filesystem binding the scenario directory to its path. -/
def scanDemoFs : List (String × FSTree) := [("C:\\Demo", scanDemoTree)]

/-- Catalog location pointing at the scenario directory. -/
def scanDemoLoc : CleanupLocation :=
  { name := "Demo", path := "C:\\Demo", description := "demo files" }

/-- C9: scanning a location whose directory holds exactly three files of
100, 200 and 300 bytes populates `file_count = 3` and a size of exactly
600 bytes (the stored megabyte value times 1024*1024); and scanning any
location with a real (non-virtualized) path that does not exist sets both
cached fields to exactly 0. -/
theorem scan_scenario_and_missing_path :
    ((scan_location scanDemoFs scanDemoLoc).file_count = 3 ∧
      (scan_location scanDemoFs scanDemoLoc).size_mb * (1024 * 1024) = 600) ∧
    (∀ (loc : CleanupLocation) (fs : List (String × FSTree)),
      loc.path ≠ "$Recycle.Bin" → lookupTree fs loc.path = none →
      (scan_location fs loc).size_mb = 0 ∧ (scan_location fs loc).file_count = 0) := by
  constructor
  · constructor
    · rfl
    · have h : (scan_location scanDemoFs scanDemoLoc).size_mb = mbOfBytes 600 := rfl
      rw [h]
      norm_num [mbOfBytes]
  · intro loc fs hvirt habs
    simp [scan_location, hvirt, calculate_directory_size, habs]

/-- Witness for C9's universal part at a concrete input: scanning a
location with an absent path over the empty filesystem. -/
theorem scan_scenario_and_missing_path_witness :
    (scan_location [] userTempLoc).size_mb = 0 ∧ (scan_location [] userTempLoc).file_count = 0 :=
  scan_scenario_and_missing_path.2 userTempLoc [] (by decide) rfl

/-- C10: a scan rewrites only the two cached fields.  For every catalog and
filesystem, the scanned catalog has the same keys in the same order, and
entrywise the location's `name`, `path`, `description`, `category`,
`enabled`, `requires_admin` and `safe_to_delete` are unchanged. -/
theorem scan_frame_property (catalog : List (String × CleanupLocation))
    (fs : List (String × FSTree)) :
    (scan_cleanup_locations catalog fs).map Prod.fst = catalog.map Prod.fst ∧
    List.Forall₂ (fun kl kl' : String × CleanupLocation =>
      kl'.1 = kl.1 ∧ kl'.2.name = kl.2.name ∧ kl'.2.path = kl.2.path ∧
      kl'.2.description = kl.2.description ∧ kl'.2.category = kl.2.category ∧
      kl'.2.enabled = kl.2.enabled ∧ kl'.2.requires_admin = kl.2.requires_admin ∧
      kl'.2.safe_to_delete = kl.2.safe_to_delete)
      catalog (scan_cleanup_locations catalog fs) := by
  constructor
  · induction catalog with
    | nil => rfl
    | cons kl rest ih => simp [scan_cleanup_locations] at ih ⊢
  · induction catalog with
    | nil => exact List.Forall₂.nil
    | cons kl rest ih =>
      exact List.Forall₂.cons ⟨rfl, rfl, rfl, rfl, rfl, rfl, rfl, rfl⟩ ih

/-- C4: the batch executor returns exactly one result per selected key, in
input order; an unknown key contributes the `success = false` /
"Location not found" result, leaves the environment untouched, and the
remaining keys produce exactly what they would have produced had the
unknown key not been selected. -/
theorem batch_order_and_unknown_key_independence :
    (∀ (catalog : List (String × CleanupLocation)) (env : Env) (keys : List String),
      ((cleanup_selected_locations catalog env keys).1).length = keys.length) ∧
    (∀ (catalog : List (String × CleanupLocation)) (env : Env) (key : String)
      (keys : List String), lookupLoc catalog key = none →
      cleanup_selected_locations catalog env (key :: keys) =
        ({ location := key, success := false, files_deleted := 0, size_freed_mb := 0,
           error_message := "Location not found", duration_seconds := 0 } ::
            (cleanup_selected_locations catalog env keys).1,
          (cleanup_selected_locations catalog env keys).2)) := by
  constructor
  · intro catalog env keys
    induction keys generalizing env with
    | nil => rfl
    | cons k ks ih => simp [cleanup_selected_locations, ih]
  · intro catalog env key keys h
    simp [cleanup_selected_locations, cleanup_location, h]

/-- Witness for C4 at the spec's own scenario: the batch
`["missing_key", "user_temp"]` over a catalog that only knows `user_temp`. -/
theorem batch_order_and_unknown_key_independence_witness :
    cleanup_selected_locations [("user_temp", userTempLoc)] emptyEnv
        ("missing_key" :: ["user_temp"]) =
      ({ location := "missing_key", success := false, files_deleted := 0, size_freed_mb := 0,
         error_message := "Location not found", duration_seconds := 0 } ::
          (cleanup_selected_locations [("user_temp", userTempLoc)] emptyEnv ["user_temp"]).1,
        (cleanup_selected_locations [("user_temp", userTempLoc)] emptyEnv ["user_temp"]).2) :=
  batch_order_and_unknown_key_independence.2 [("user_temp", userTempLoc)] emptyEnv
    "missing_key" ["user_temp"] rfl

/-- The `CleanupResult` invariant: non-negative counters; a failure always
carries a non-empty message; the only successes carrying a message are the
two "target path does not exist" no-ops, and those report zero effect. -/
def ResultInv (r : CleanupResult) : Prop :=
  (0 : Int) ≤ (r.files_deleted : Int) ∧
  0 ≤ r.size_freed_mb ∧
  (r.success = false → r.error_message ≠ "") ∧
  (r.success = true → r.error_message ≠ "" →
    r.files_deleted = 0 ∧ r.size_freed_mb = 0 ∧
    (r.error_message = "Directory does not exist" ∨
      r.error_message = "Prefetch directory does not exist"))

/-- Python exceptions render to non-empty text: `str(e)` of the `OSError`,
`PermissionError`, `TimeoutExpired` and friends that the engine can
actually catch is never the empty string.  This is the one environmental
fact the message-non-emptiness invariant rests on. -/
def EnvExnTexts (env : Env) : Prop :=
  (∀ e, env.recycleCmd = .error e → e ≠ "") ∧
  (∀ e, env.stopCmd = .error e → e ≠ "") ∧
  (∀ e, env.startCmd = .error e → e ≠ "") ∧
  (∀ e, env.wipeExn = some e → e ≠ "")

theorem resultInv_cleanup_directory (loc : CleanupLocation) (fs : List (String × FSTree))
    (dur : Nat) : ResultInv (cleanup_directory loc fs dur).1 := by
  unfold cleanup_directory
  cases h : lookupTree fs loc.path with
  | none =>
    exact ⟨by simp, le_refl 0, by simp, fun _ _ => ⟨rfl, rfl, Or.inl rfl⟩⟩
  | some t =>
    exact ⟨by simp, mbOfBytes_nonneg _, by simp, fun _ hm => absurd rfl hm⟩

theorem scan_recycle_bin_nonneg (fs : List (String × FSTree)) :
    0 ≤ (scan_recycle_bin fs).1 := by
  simp only [scan_recycle_bin]
  exact mbOfBytes_nonneg _

theorem resultInv_empty_recycle_bin (env : Env)
    (hexn : ∀ e, env.recycleCmd = .error e → e ≠ "") :
    ResultInv (empty_recycle_bin env) := by
  unfold empty_recycle_bin
  cases h : env.recycleCmd with
  | error e =>
    exact ⟨by simp, le_refl 0, fun _ => hexn e h, by simp⟩
  | ok r =>
    by_cases hc : r.returncode = 0
    · refine ⟨by simp [hc], ?_, by simp [hc], by simp [hc]⟩
      simp only [hc, if_pos rfl]
      exact scan_recycle_bin_nonneg env.fs
    · by_cases hs : r.stderr = ""
      · exact ⟨by simp [hc], by simp [hc], fun _ => by simp [hc, hs], by simp [hc]⟩
      · exact ⟨by simp [hc], by simp [hc], fun _ => by simp [hc, hs], by simp [hc]⟩

theorem resultInv_cleanup_prefetch_files (env : Env) :
    ResultInv (cleanup_prefetch_files env).1 := by
  unfold cleanup_prefetch_files
  cases h : lookupTree env.fs prefetchPath with
  | none =>
    exact ⟨by simp, le_refl 0, by simp, fun _ _ => ⟨rfl, rfl, Or.inr rfl⟩⟩
  | some t =>
    exact ⟨by simp, mbOfBytes_nonneg _, by simp, fun _ hm => absurd rfl hm⟩

theorem resultInv_cleanup_windows_update_cache (env : Env)
    (hstop : ∀ e, env.stopCmd = .error e → e ≠ "")
    (hstart : ∀ e, env.startCmd = .error e → e ≠ "")
    (hwipe : ∀ e, env.wipeExn = some e → e ≠ "") :
    ResultInv (cleanup_windows_update_cache env).1 := by
  unfold cleanup_windows_update_cache
  cases hs : env.stopCmd with
  | error e =>
    exact ⟨by simp [updateCacheFailure], le_refl 0, fun _ => hstop e hs,
      by simp [updateCacheFailure]⟩
  | ok r =>
    cases hw : env.wipeExn with
    | some e =>
      exact ⟨by simp [updateCacheFailure], le_refl 0, fun _ => hwipe e hw,
        by simp [updateCacheFailure]⟩
    | none =>
      cases hst : env.startCmd with
      | error e =>
        exact ⟨by simp [updateCacheFailure], le_refl 0, fun _ => hstart e hst,
          by simp [updateCacheFailure]⟩
      | ok r2 => exact resultInv_cleanup_directory updateCacheLoc env.fs env.dur

/-- C6: every result produced by the dispatcher — and hence by every
strategy, on every catalog, environment and key — satisfies the
`CleanupResult` invariant: counters are non-negative, `success = false`
implies a non-empty message, and the only `success = true` results carrying
a message are the two path-absent no-ops, with zero counters.  The sole
environmental hypothesis is that Python exception texts are non-empty. -/
theorem cleanup_result_invariant (catalog : List (String × CleanupLocation)) (env : Env)
    (key : String) (hexn : EnvExnTexts env) :
    ResultInv (cleanup_location catalog env key).1 := by
  obtain ⟨h1, h2, h3, h4⟩ := hexn
  unfold cleanup_location
  cases hl : lookupLoc catalog key with
  | none => exact ⟨by simp, le_refl 0, by simp, by simp⟩
  | some loc =>
    by_cases k1 : key = "recycle_bin"
    · simp only [if_pos k1]
      exact resultInv_empty_recycle_bin env h1
    · simp only [if_neg k1]
      by_cases k2 : key = "prefetch"
      · simp only [if_pos k2]
        exact resultInv_cleanup_prefetch_files env
      · simp only [if_neg k2]
        by_cases k3 : key = "windows_update_cache"
        · simp only [if_pos k3]
          exact resultInv_cleanup_windows_update_cache env h2 h3 h4
        · simp only [if_neg k3]
          exact resultInv_cleanup_directory loc env.fs env.dur

theorem emptyEnv_exn_texts : EnvExnTexts emptyEnv := by
  refine ⟨?_, ?_, ?_, ?_⟩ <;> intro e h <;> simp [emptyEnv, okCmd] at h

/-- Witness for C6 at a concrete input: the invariant evaluated on a
known-key cleanup over the empty filesystem. -/
theorem cleanup_result_invariant_witness :
    ResultInv (cleanup_location [("user_temp", userTempLoc)] emptyEnv "user_temp").1 :=
  cleanup_result_invariant [("user_temp", userTempLoc)] emptyEnv "user_temp" emptyEnv_exn_texts

theorem mem_of_eligible {L : List FileEntry} {f : FileEntry} (h : f ∈ eligibleFiles L) :
    f ∈ L :=
  (List.mem_filter.mp h).1

theorem sortByMtime_perm (l : List FileEntry) : (sortByMtime l).Perm l :=
  List.perm_insertionSort _ l

theorem sortByMtime_sorted (l : List FileEntry) : List.Sorted mtimeGE (sortByMtime l) :=
  List.sorted_insertionSort _ l

theorem name_contains_iff (l : List String) (a : String) : l.contains a = true ↔ a ∈ l :=
  List.elem_iff

theorem trimRemoved_eq_drop (L : List FileEntry) (hunlocked : ∀ f ∈ L, f.locked = false) :
    trimRemoved L = (sortByMtime (eligibleFiles L)).drop 128 := by
  unfold trimRemoved
  apply List.filter_eq_self.mpr
  intro d hd
  have hdL : d ∈ L :=
    mem_of_eligible ((sortByMtime_perm _).mem_iff.mp (List.mem_of_mem_drop hd))
  simp [hunlocked d hdL]

theorem trimSurvivors_eligible_eq_filter (L : List FileEntry) :
    eligibleFiles (trimSurvivors L) =
      (eligibleFiles L).filter
        (fun f => !(((trimRemoved L).map (fun g => g.name)).contains f.name)) := by
  unfold eligibleFiles trimSurvivors
  rw [List.filter_filter, List.filter_filter]
  exact List.filter_congr (fun x _ => Bool.and_comm _ _)

theorem trimRemoved_filter_drop (L : List FileEntry)
    (hunlocked : ∀ f ∈ L, f.locked = false) :
    ((sortByMtime (eligibleFiles L)).drop 128).filter
        (fun f => !(((trimRemoved L).map (fun g => g.name)).contains f.name)) = [] := by
  apply List.filter_eq_nil_iff.mpr
  intro d hd
  have hmem : d.name ∈ (trimRemoved L).map (fun g => g.name) := by
    rw [trimRemoved_eq_drop L hunlocked]
    exact List.mem_map_of_mem _ hd
  have hc : ((trimRemoved L).map (fun g => g.name)).contains d.name = true :=
    (name_contains_iff _ _).mpr hmem
  simp only [hc, Bool.not_true]
  exact Bool.false_ne_true

theorem trimSurvivors_eligible_perm (L : List FileEntry)
    (hnodup : (L.map (fun f => f.name)).Nodup)
    (hunlocked : ∀ f ∈ L, f.locked = false) :
    (eligibleFiles (trimSurvivors L)).Perm ((sortByMtime (eligibleFiles L)).take 128) := by
  set elig := eligibleFiles L with helig
  set sorted := sortByMtime elig with hsorted_def
  set kept := sorted.take 128 with hkept
  set del := sorted.drop 128 with hdel_def
  set p : FileEntry → Bool :=
    fun f => !(((trimRemoved L).map (fun g => g.name)).contains f.name) with hp
  have hperm : sorted.Perm elig := sortByMtime_perm elig
  have hsplit : kept ++ del = sorted := List.take_append_drop _ _
  have heligN : (elig.map (fun f => f.name)).Nodup :=
    List.Nodup.sublist (List.Sublist.map _ (List.filter_sublist L)) hnodup
  have hsortN : (sorted.map (fun f => f.name)).Nodup :=
    ((hperm.map _).nodup_iff).mpr heligN
  have happN : (kept.map (fun f => f.name) ++ del.map (fun f => f.name)).Nodup := by
    rw [← List.map_append, hsplit]
    exact hsortN
  have hdisj := (List.nodup_append.mp happN).2.2
  have hkeep : kept.filter p = kept := by
    apply List.filter_eq_self.mpr
    intro k hk
    have hnotin : k.name ∉ del.map (fun g => g.name) := fun hmem =>
      hdisj (List.mem_map_of_mem _ hk) hmem
    have hcf : ((trimRemoved L).map (fun g => g.name)).contains k.name = false := by
      cases hcb : ((trimRemoved L).map (fun g => g.name)).contains k.name with
      | false => rfl
      | true =>
        exact absurd (by
          have := (name_contains_iff _ _).mp hcb
          rwa [trimRemoved_eq_drop L hunlocked] at this) hnotin
    simp only [hp, hcf, Bool.not_false]
  have hdel : del.filter p = [] := trimRemoved_filter_drop L hunlocked
  have h1 : sorted.filter p = kept := by
    rw [← hsplit, List.filter_append, hkeep, hdel, List.append_nil]
  have h2 : (elig.filter p).Perm kept := by
    rw [← h1]
    exact (hperm.filter p).symm
  rw [trimSurvivors_eligible_eq_filter L]
  exact h2

theorem trimSurvivors_eligible_le (L : List FileEntry)
    (hunlocked : ∀ f ∈ L, f.locked = false) :
    (eligibleFiles (trimSurvivors L)).length ≤ 128 := by
  set elig := eligibleFiles L with helig
  set sorted := sortByMtime elig with hsorted_def
  set kept := sorted.take 128 with hkept
  set del := sorted.drop 128 with hdel_def
  set p : FileEntry → Bool :=
    fun f => !(((trimRemoved L).map (fun g => g.name)).contains f.name) with hp
  have hperm : sorted.Perm elig := sortByMtime_perm elig
  have hsplit : kept ++ del = sorted := List.take_append_drop _ _
  have hdel : del.filter p = [] := trimRemoved_filter_drop L hunlocked
  have h1 : sorted.filter p = kept.filter p := by
    rw [← hsplit, List.filter_append, hdel, List.append_nil]
  have h2 : (elig.filter p).length = (kept.filter p).length := by
    rw [← h1]
    exact ((hperm.filter p).symm).length_eq
  rw [trimSurvivors_eligible_eq_filter L]
  calc (elig.filter p).length = (kept.filter p).length := h2
    _ ≤ kept.length := List.length_filter_le _ _
    _ ≤ 128 := List.length_take_le _ _

/-- C1: the fixed-size prefetch trim, on any prefetch directory whose
listing has distinct names and no locked files: the strategy succeeds, it
deletes exactly the eligible files past the 128 newest, the eligible files
remaining at the path afterwards number exactly `min 128 original_count`,
the kept set is exactly the first 128 of the stable newest-first sort
(Python's stable sort: equal mtimes keep listing order, a deterministic
tie-break), and every kept file is at least as recently modified as every
deleted one. -/
theorem prefetch_trim_keeps_newest_128 (env : Env) (t : FSTree)
    (hfind : lookupTree env.fs prefetchPath = some t)
    (hnodup : (t.files.map (fun f => f.name)).Nodup)
    (hunlocked : ∀ f ∈ t.files, f.locked = false) :
    (cleanup_prefetch_files env).1.success = true ∧
    (cleanup_prefetch_files env).1.files_deleted =
      (eligibleFiles t.files).length - min 128 (eligibleFiles t.files).length ∧
    ∃ t', lookupTree (cleanup_prefetch_files env).2 prefetchPath = some t' ∧
      (eligibleFiles t'.files).Perm ((sortByMtime (eligibleFiles t.files)).take 128) ∧
      (eligibleFiles t'.files).length = min 128 (eligibleFiles t.files).length ∧
      (∀ k ∈ (sortByMtime (eligibleFiles t.files)).take 128,
        ∀ d ∈ (sortByMtime (eligibleFiles t.files)).drop 128, d.mtime ≤ k.mtime) := by
  have hres : cleanup_prefetch_files env =
      ({ location := "Prefetch Files", success := true,
         files_deleted := (trimRemoved t.files).length,
         size_freed_mb := mbOfBytes (sumSizes (trimRemoved t.files)), error_message := "",
         duration_seconds := env.dur },
       updateTree env.fs prefetchPath
         (FSTree.dir t.dirName (trimSurvivors t.files) t.subdirs)) := by
    unfold cleanup_prefetch_files
    rw [hfind]
  rw [hres]
  refine ⟨rfl, ?_, ?_⟩
  · show (trimRemoved t.files).length = _
    rw [trimRemoved_eq_drop t.files hunlocked, List.length_drop,
      (sortByMtime_perm (eligibleFiles t.files)).length_eq]
    omega
  · refine ⟨FSTree.dir t.dirName (trimSurvivors t.files) t.subdirs,
      lookupTree_updateTree env.fs prefetchPath _ t hfind, ?_, ?_, ?_⟩
    · exact trimSurvivors_eligible_perm t.files hnodup hunlocked
    · show (eligibleFiles (trimSurvivors t.files)).length = _
      rw [(trimSurvivors_eligible_perm t.files hnodup hunlocked).length_eq,
        List.length_take, (sortByMtime_perm (eligibleFiles t.files)).length_eq]
    · have hsorted := sortByMtime_sorted (eligibleFiles t.files)
      have hsplit : List.Pairwise mtimeGE ((sortByMtime (eligibleFiles t.files)).take 128 ++
          (sortByMtime (eligibleFiles t.files)).drop 128) := by
        rw [List.take_append_drop]
        exact hsorted
      have hpw := List.pairwise_append.mp hsplit
      exact fun k hk d hd => hpw.2.2 k hk d hd

/-- Concrete prefetch directory: two eligible `.pf` files and one
ineligible text file, all unlocked. -/
def prefetchDemoTree : FSTree :=
  .dir "Prefetch" [⟨"A.pf", 10, 5, false⟩, ⟨"B.pf", 20, 9, false⟩, ⟨"note.txt", 1, 2, false⟩] .fnil

/-- Concrete environment whose filesystem holds only the demo prefetch
directory. -/
def prefetchDemoEnv : Env :=
  { emptyEnv with fs := [(prefetchPath, prefetchDemoTree)] }

/-- Witness for C1 at a concrete input: the trim on a three-entry prefetch
listing with two eligible files. -/
theorem prefetch_trim_keeps_newest_128_witness :
    (cleanup_prefetch_files prefetchDemoEnv).1.success = true ∧
    (cleanup_prefetch_files prefetchDemoEnv).1.files_deleted =
      (eligibleFiles prefetchDemoTree.files).length -
        min 128 (eligibleFiles prefetchDemoTree.files).length ∧
    ∃ t', lookupTree (cleanup_prefetch_files prefetchDemoEnv).2 prefetchPath = some t' ∧
      (eligibleFiles t'.files).Perm
        ((sortByMtime (eligibleFiles prefetchDemoTree.files)).take 128) ∧
      (eligibleFiles t'.files).length = min 128 (eligibleFiles prefetchDemoTree.files).length ∧
      (∀ k ∈ (sortByMtime (eligibleFiles prefetchDemoTree.files)).take 128,
        ∀ d ∈ (sortByMtime (eligibleFiles prefetchDemoTree.files)).drop 128,
          d.mtime ≤ k.mtime) :=
  prefetch_trim_keeps_newest_128 prefetchDemoEnv prefetchDemoTree rfl (by decide) (by decide)

theorem cleanup_prefetch_files_found (env : Env) (t : FSTree)
    (hfind : lookupTree env.fs prefetchPath = some t) :
    cleanup_prefetch_files env =
      ({ location := "Prefetch Files", success := true,
         files_deleted := (trimRemoved t.files).length,
         size_freed_mb := mbOfBytes (sumSizes (trimRemoved t.files)), error_message := "",
         duration_seconds := env.dur },
       updateTree env.fs prefetchPath
         (FSTree.dir t.dirName (trimSurvivors t.files) t.subdirs)) := by
  unfold cleanup_prefetch_files
  rw [hfind]

/-- C8: cleanup is idempotent.  Re-running the generic wipe on the state
any first run left behind deletes nothing and succeeds (whatever survived
the first run is exactly what cannot be deleted, or the path was absent);
and re-running the prefetch trim after a trim whose deletions all succeeded
deletes nothing and succeeds, since at most 128 eligible files remain. -/
theorem cleanup_idempotent :
    (∀ (loc : CleanupLocation) (fs : List (String × FSTree)) (d1 d2 : Nat),
      ((cleanup_directory loc (cleanup_directory loc fs d1).2.1 d2).1).files_deleted = 0 ∧
      ((cleanup_directory loc (cleanup_directory loc fs d1).2.1 d2).1).success = true) ∧
    (∀ (env : Env) (t : FSTree), lookupTree env.fs prefetchPath = some t →
      (∀ f ∈ t.files, f.locked = false) →
      ((cleanup_prefetch_files
          { env with fs := (cleanup_prefetch_files env).2 }).1).files_deleted = 0 ∧
      ((cleanup_prefetch_files
          { env with fs := (cleanup_prefetch_files env).2 }).1).success = true) := by
  constructor
  · intro loc fs d1 d2
    cases h : lookupTree fs loc.path with
    | none =>
      have h2 : (cleanup_directory loc fs d1).2.1 = fs := by
        simp [cleanup_directory, h]
      rw [h2]
      simp [cleanup_directory, h]
    | some t =>
      have h2 : (cleanup_directory loc fs d1).2.1 = updateTree fs loc.path t.wipe.1 := by
        simp [cleanup_directory, h]
      have h3 := lookupTree_updateTree fs loc.path t.wipe.1 t h
      rw [h2]
      simp [cleanup_directory, h3, FSTree.wipe_count, FSTree.wipe_post_unlocked]
  · intro env t hfind hunlocked
    have h2 : (cleanup_prefetch_files env).2 =
        updateTree env.fs prefetchPath
          (FSTree.dir t.dirName (trimSurvivors t.files) t.subdirs) :=
      congrArg Prod.snd (cleanup_prefetch_files_found env t hfind)
    have h3 : lookupTree ({ env with fs := (cleanup_prefetch_files env).2 } : Env).fs
        prefetchPath = some (FSTree.dir t.dirName (trimSurvivors t.files) t.subdirs) := by
      show lookupTree (cleanup_prefetch_files env).2 prefetchPath = _
      rw [h2]
      exact lookupTree_updateTree env.fs prefetchPath _ t hfind
    have hlen : (eligibleFiles (trimSurvivors t.files)).length ≤ 128 :=
      trimSurvivors_eligible_le t.files hunlocked
    have hdropnil : (sortByMtime (eligibleFiles (trimSurvivors t.files))).drop 128 = [] := by
      apply List.drop_eq_nil_of_le
      rw [(sortByMtime_perm _).length_eq]
      exact hlen
    have hrem : trimRemoved (trimSurvivors t.files) = [] := by
      unfold trimRemoved
      rw [hdropnil]
      rfl
    have hsnd := cleanup_prefetch_files_found { env with fs := (cleanup_prefetch_files env).2 }
      (FSTree.dir t.dirName (trimSurvivors t.files) t.subdirs) h3
    rw [hsnd]
    constructor
    · show (trimRemoved (trimSurvivors t.files)).length = 0
      rw [hrem]
      rfl
    · rfl

/-- Witness for C8 at concrete inputs: a double generic wipe of an absent
path, and a double prefetch trim of the demo prefetch directory. -/
theorem cleanup_idempotent_witness :
    (((cleanup_directory userTempLoc (cleanup_directory userTempLoc [] 0).2.1 0).1).files_deleted
        = 0 ∧
      ((cleanup_directory userTempLoc
          (cleanup_directory userTempLoc [] 0).2.1 0).1).success = true) ∧
    (((cleanup_prefetch_files
        { prefetchDemoEnv with
          fs := (cleanup_prefetch_files prefetchDemoEnv).2 }).1).files_deleted = 0 ∧
      ((cleanup_prefetch_files
        { prefetchDemoEnv with
          fs := (cleanup_prefetch_files prefetchDemoEnv).2 }).1).success = true) :=
  ⟨cleanup_idempotent.1 userTempLoc [] 0 0,
    cleanup_idempotent.2 prefetchDemoEnv prefetchDemoTree rfl (by decide)⟩

/-- Two locations that agree on everything except the two cached scan
fields `size_mb` and `file_count`. -/
def AgreeExceptCache (a b : CleanupLocation) : Prop :=
  a.name = b.name ∧ a.path = b.path ∧ a.description = b.description ∧
  a.enabled = b.enabled ∧ a.requires_admin = b.requires_admin ∧
  a.safe_to_delete = b.safe_to_delete ∧ a.category = b.category

/-- Two catalogs with the same keys in the same order whose locations agree
except possibly in the cached scan fields. -/
def CatalogAgree (c1 c2 : List (String × CleanupLocation)) : Prop :=
  List.Forall₂ (fun x y => x.1 = y.1 ∧ AgreeExceptCache x.2 y.2) c1 c2

theorem lookupLoc_agree {c1 c2 : List (String × CleanupLocation)} (key : String)
    (h : CatalogAgree c1 c2) :
    (lookupLoc c1 key = none ∧ lookupLoc c2 key = none) ∨
    (∃ l1 l2, lookupLoc c1 key = some l1 ∧ lookupLoc c2 key = some l2 ∧
      AgreeExceptCache l1 l2) := by
  induction h with
  | nil => exact Or.inl ⟨rfl, rfl⟩
  | @cons a b l1 l2 hpair hrest ih =>
    obtain ⟨k1, v1⟩ := a
    obtain ⟨k2, v2⟩ := b
    have hkeys : k1 = k2 := hpair.1
    by_cases hk : k1 = key
    · refine Or.inr ⟨v1, v2, by simp [lookupLoc, hk], ?_, hpair.2⟩
      have hk2 : k2 = key := hkeys ▸ hk
      simp [lookupLoc, hk2]
    · have hk2 : ¬k2 = key := fun hc => hk (hkeys ▸ hc)
      rcases ih with ⟨hn1, hn2⟩ | ⟨w1, w2, hs1, hs2, hag⟩
      · exact Or.inl ⟨by simp [lookupLoc, hk, hn1], by simp [lookupLoc, hk2, hn2]⟩
      · exact Or.inr ⟨w1, w2, by simp [lookupLoc, hk, hs1], by simp [lookupLoc, hk2, hs2], hag⟩

theorem cleanup_directory_agree (l1 l2 : CleanupLocation) (fs : List (String × FSTree))
    (dur : Nat) (hname : l1.name = l2.name) (hpath : l1.path = l2.path) :
    (cleanup_directory l1 fs dur).1 = (cleanup_directory l2 fs dur).1 ∧
    (cleanup_directory l1 fs dur).2.1 = (cleanup_directory l2 fs dur).2.1 := by
  unfold cleanup_directory
  rw [hpath, hname]
  cases h : lookupTree fs l2.path with
  | none => exact ⟨rfl, rfl⟩
  | some t => exact ⟨rfl, rfl⟩

/-- C3 (amended): the result a cleanup returns and the filesystem state it
leaves behind are independent of the cached `size_mb`/`file_count` values —
two runs over catalogs agreeing on everything else produce identical
results and identical post-state — and the bytes the generic wipe reports
freed are the live sizes of the deletable files found at the path at delete
time.  (Only the progress-callback trace may depend on the cached
`file_count`; see the counterexample.) -/
theorem cleanup_independent_of_cached_fields (c1 c2 : List (String × CleanupLocation))
    (env : Env) (key : String) (hagree : CatalogAgree c1 c2) :
    ((cleanup_location c1 env key).1 = (cleanup_location c2 env key).1 ∧
      (cleanup_location c1 env key).2.1 = (cleanup_location c2 env key).2.1) ∧
    (∀ (loc : CleanupLocation) (fs : List (String × FSTree)) (dur : Nat) (t : FSTree),
      lookupTree fs loc.path = some t →
      ((cleanup_directory loc fs dur).1).size_freed_mb = mbOfBytes t.unlockedSize) := by
  constructor
  · rcases lookupLoc_agree key hagree with ⟨hn1, hn2⟩ | ⟨l1, l2, hs1, hs2, hag⟩
    · unfold cleanup_location
      rw [hn1, hn2]
      exact ⟨rfl, rfl⟩
    · unfold cleanup_location
      rw [hs1, hs2]
      by_cases k1 : key = "recycle_bin"
      · simp only [if_pos k1]
        exact ⟨trivial, trivial⟩
      · simp only [if_neg k1]
        by_cases k2 : key = "prefetch"
        · simp only [if_pos k2]
          exact ⟨trivial, trivial⟩
        · simp only [if_neg k2]
          by_cases k3 : key = "windows_update_cache"
          · simp only [if_pos k3]
            exact ⟨trivial, trivial⟩
          · simp only [if_neg k3]
            obtain ⟨hd1, hd2⟩ :=
              cleanup_directory_agree l1 l2 env.fs env.dur hag.1 hag.2.1
            exact ⟨hd1, by rw [hd2]⟩
  · intro loc fs dur t hfind
    unfold cleanup_directory
    rw [hfind]
    show mbOfBytes t.wipe.2.2 = mbOfBytes t.unlockedSize
    rw [FSTree.wipe_freed]

/-- Filesystem for the C3 counterexample: one file at the target path. -/
def c3Fs : List (String × FSTree) :=
  [("C:\\Temp", .dir "Temp" [⟨"x.log", 1, 0, false⟩] .fnil)]

/-- Location with a stale cached `file_count` of 0. -/
def c3LocA : CleanupLocation :=
  { name := "T", path := "C:\\Temp", description := "d", file_count := 0 }

/-- The same location with cached `file_count` of 1. -/
def c3LocB : CleanupLocation :=
  { name := "T", path := "C:\\Temp", description := "d", file_count := 1 }

/-- C3 counterexample: the generic wipe does read the cached `file_count`
field — `total_files = location.file_count` feeds the progress callback
guard — so two runs that differ only in the cached values are
distinguishable through the documented progress-callback interface: with a
stale cached count of 0 no progress fires, with a count of 1 the deletion
reports `(1, 1)`.  The claim's "never reads the cached fields" is
therefore false, although the deletions and the returned result are
unaffected. -/
theorem cleanup_reads_cached_file_count_counterexample :
    AgreeExceptCache c3LocA c3LocB ∧ c3LocA.file_count ≠ c3LocB.file_count ∧
    (cleanup_directory c3LocA c3Fs 0).2.2 = [] ∧
    (cleanup_directory c3LocB c3Fs 0).2.2 = [(1, 1)] :=
  ⟨⟨rfl, rfl, rfl, rfl, rfl, rfl, rfl⟩, by decide, rfl, rfl⟩

/-- Concrete environment over the C3 filesystem. -/
def c3Env : Env := { emptyEnv with fs := c3Fs }

/-- Witness for C3's amended theorem at a concrete input: one-entry
catalogs differing only in the cached count. -/
theorem cleanup_independent_of_cached_fields_witness :
    ((cleanup_location [("t", c3LocA)] c3Env "t").1 =
        (cleanup_location [("t", c3LocB)] c3Env "t").1 ∧
      (cleanup_location [("t", c3LocA)] c3Env "t").2.1 =
        (cleanup_location [("t", c3LocB)] c3Env "t").2.1) ∧
    (∀ (loc : CleanupLocation) (fs : List (String × FSTree)) (dur : Nat) (t : FSTree),
      lookupTree fs loc.path = some t →
      ((cleanup_directory loc fs dur).1).size_freed_mb = mbOfBytes t.unlockedSize) :=
  cleanup_independent_of_cached_fields [("t", c3LocA)] [("t", c3LocB)] c3Env "t"
    (List.Forall₂.cons ⟨rfl, rfl, rfl, rfl, rfl, rfl, rfl, rfl⟩ List.Forall₂.nil)

/-- Environment for the C7 counterexample: the service-start command
completes with a non-zero exit code and non-empty stderr while everything
else succeeds. -/
def c7Env : Env :=
  { fs := [(updateCachePath, FSTree.dir "Download" [⟨"u.cab", 4096, 0, false⟩] .fnil)],
    recycleCmd := okCmd, stopCmd := okCmd,
    startCmd := .ok { returncode := 2, stdout := "", stderr := "The service is not started." },
    wipeExn := none, dur := 5 }

/-- C7 counterexample: the `net start wuauserv` invocation of the
update-cache strategy exits with code 2 and non-empty stderr, yet the
strategy's result is `success = true` with an empty message — the source
never examines the return code of the service-control commands, so a
non-zero exit is not treated as a failure and its stderr never becomes the
error message. -/
theorem external_command_nonzero_exit_counterexample :
    c7Env.startCmd =
      Except.ok { returncode := 2, stdout := "", stderr := "The service is not started." } ∧
    (2 : Int) ≠ 0 ∧
    (cleanup_windows_update_cache c7Env).1.success = true ∧
    (cleanup_windows_update_cache c7Env).1.error_message = "" :=
  ⟨rfl, by decide, rfl, rfl⟩

/-- C7 (amended): how external-command outcomes actually map to results.
For the OS-delegated recycle-bin empty, a non-zero exit fails the strategy
with the captured stderr verbatim when stderr is non-empty and a fixed
fallback otherwise, and a raised exception (including a timeout) fails it
with the exception text; the measured duration is recorded in both cases.
For the service stop/start commands of the update-cache strategy, exit
codes are ignored entirely: only a raised exception (including a timeout)
produces the failure result, carrying the exception text — never stderr —
while a completed start command of any exit code lets the inner wipe's
result through unchanged. -/
theorem external_command_failure_handling :
    (∀ (env : Env) (r : CmdResult), env.recycleCmd = .ok r → r.returncode ≠ 0 →
      (empty_recycle_bin env).success = false ∧
      (empty_recycle_bin env).error_message =
        (if r.stderr = "" then "Failed to empty Recycle Bin" else r.stderr) ∧
      (empty_recycle_bin env).duration_seconds = env.dur) ∧
    (∀ (env : Env) (e : String), env.recycleCmd = .error e →
      (empty_recycle_bin env).success = false ∧
      (empty_recycle_bin env).error_message = e ∧
      (empty_recycle_bin env).duration_seconds = env.dur) ∧
    (∀ (env : Env) (e : String), env.stopCmd = .error e →
      (cleanup_windows_update_cache env).1 = updateCacheFailure e env.dur) ∧
    (∀ (env : Env) (r : CmdResult) (e : String), env.stopCmd = .ok r →
      env.wipeExn = some e →
      (cleanup_windows_update_cache env).1 = updateCacheFailure e env.dur) ∧
    (∀ (env : Env) (r : CmdResult) (e : String), env.stopCmd = .ok r →
      env.wipeExn = none → env.startCmd = .error e →
      (cleanup_windows_update_cache env).1 = updateCacheFailure e env.dur) ∧
    (∀ (env : Env) (r r2 : CmdResult), env.stopCmd = .ok r → env.wipeExn = none →
      env.startCmd = .ok r2 →
      (cleanup_windows_update_cache env).1 =
        (cleanup_directory updateCacheLoc env.fs env.dur).1) := by
  refine ⟨?_, ?_, ?_, ?_, ?_, ?_⟩
  · intro env r h hc
    unfold empty_recycle_bin
    rw [h]
    simp only [if_neg hc]
    exact ⟨trivial, trivial, trivial⟩
  · intro env e h
    unfold empty_recycle_bin
    rw [h]
    exact ⟨rfl, rfl, rfl⟩
  · intro env e h
    unfold cleanup_windows_update_cache
    rw [h]
  · intro env r e hs hw
    unfold cleanup_windows_update_cache
    rw [hs, hw]
  · intro env r e hs hw hst
    unfold cleanup_windows_update_cache
    rw [hs, hw, hst]
  · intro env r r2 hs hw hst
    unfold cleanup_windows_update_cache
    rw [hs, hw, hst]

/-- Environment for the C7 witness: the recycle-bin empty command exits 1
with non-empty stderr. -/
def c7bEnv : Env :=
  { emptyEnv with recycleCmd := .ok { returncode := 1, stdout := "", stderr := "Access denied" } }

/-- Witness for C7's amended theorem at a concrete input: a failing
recycle-bin command. -/
theorem external_command_failure_handling_witness :
    (empty_recycle_bin c7bEnv).success = false ∧
    (empty_recycle_bin c7bEnv).error_message =
      (if ("Access denied" : String) = "" then "Failed to empty Recycle Bin"
        else "Access denied") ∧
    (empty_recycle_bin c7bEnv).duration_seconds = c7bEnv.dur :=
  external_command_failure_handling.1 c7bEnv
    { returncode := 1, stdout := "", stderr := "Access denied" } rfl (by decide)
